import Mathlib

/-!
Shallow embedding of the core of the `subgraph-automocking` GraphQL mocking
proxy: query normalisation utilities (`src/utils/queryUtils.ts`), the
subgraph health-monitor state machine (`src/services/SubgraphHealthMonitor.ts`),
the subgraph registry routing predicate (`SubgraphRegistry` in
`src/utils/queryUtils.ts` bundle), the schema cache
(`src/services/SchemaCache.ts`), the introspection retry loop
(`src/services/IntrospectionService.ts`), the passthrough handler
(`PassThroughHandler`), and the URL-decoder middleware plus the proxy
route dispatch (`src/middleware/urlDecoder.ts`, `src/server.ts`).

External effects (HTTP probes, file reads, the Apollo registry client,
`decodeURIComponent`, schema building) are modelled as explicit oracle
parameters; timestamps are natural numbers (milliseconds).
-/

namespace MockingProxy

/-! ## Query utilities (`src/utils/queryUtils.ts`) -/

/-- Models the JS regex class `\s` used by `query.replace(/\s+/g, '')`. -/
def jsWhitespace (c : Char) : Bool :=
  let n := c.toNat
  (9 ≤ n && n ≤ 13) || n == 32 || n == 160 || n == 5760 ||
    (8192 ≤ n && n ≤ 8202) || n == 8232 || n == 8233 || n == 8239 ||
    n == 8287 || n == 12288 || n == 65279

/-- One-pass comment stripper: in-comment mode consumes characters up to
(but not including) the next newline, as the regex `/#[^\n]*/` matches. -/
def stripCommentsGo : Bool → List Char → List Char
  | _, [] => []
  | true, c :: cs =>
    if c = '\n' then c :: stripCommentsGo false cs else stripCommentsGo true cs
  | false, c :: cs =>
    if c = '#' then stripCommentsGo true cs else c :: stripCommentsGo false cs

/-- Remove every `#[^\n]*` comment from a character list
(`query.replace(/#[^\n]*\/g, '')`). -/
def stripComments (l : List Char) : List Char :=
  stripCommentsGo false l

/-- The federation introspection query constant
`FEDERATION_INTROSPECTION_QUERY` (the template literal after `.trim()`). -/
def FEDERATION_INTROSPECTION_QUERY : String :=
  "query SubgraphIntrospectQuery \x7b\n    # eslint-disable-next-line\n    _service \x7b\n      sdl\n    \x7d\n  \x7d"

/-- Models `normalizeQuery`: remove comments, remove all whitespace,
lowercase. -/
def normalizeQuery (query : String) : String :=
  String.mk (((stripComments query.data).filter (fun c => !jsWhitespace c)).map Char.toLower)

/-- Models `isIntrospectionQuery`. -/
def isIntrospectionQuery (query : String) : Bool :=
  normalizeQuery query == normalizeQuery FEDERATION_INTROSPECTION_QUERY

/-- Truthiness of an optional JS string: defined and non-empty. -/
def strTruthy (s : Option String) : Bool :=
  match s with
  | some v => v != ""
  | none => false

/-! ## Configuration and state (`src/config/subgraphConfig.ts`) -/

/-- Models `SubgraphStatus`. -/
inductive SubgraphStatus
  | unknown
  | available
  | unavailable
  | mocking
deriving DecidableEq

/-- Models `SchemaSource` (the string union). -/
inductive SchemaSource
  | apolloRegistry
  | localIntrospection
  | unknownSource
deriving DecidableEq

/-- Models `SubgraphConfigItem` (validated shape; numerics as `Nat`). -/
structure SubgraphConfigItem where
  forceMock : Bool
  disableMocking : Bool
  useLocalSchema : Bool
  schemaFile : Option String
  introspectionHeaders : List (String × String)
  maxRetries : Nat
  retryDelayMs : Nat
  healthCheckIntervalMs : Nat
deriving DecidableEq

/-- Models `DEFAULT_SUBGRAPH_CONFIG`. -/
def DEFAULT_SUBGRAPH_CONFIG : SubgraphConfigItem :=
  { forceMock := false
    disableMocking := false
    useLocalSchema := false
    schemaFile := none
    introspectionHeaders := []
    maxRetries := 2
    retryDelayMs := 1000
    healthCheckIntervalMs := 30000 }

/-- Models `SubgraphState` (timestamps as `Nat` milliseconds). -/
structure SubgraphState where
  name : String
  url : Option String
  status : SubgraphStatus
  schemaSource : SchemaSource
  isMocking : Bool
  isHealthy : Bool
  lastHealthCheck : Option Nat
  consecutiveFailures : Nat
  config : SubgraphConfigItem
deriving DecidableEq

/-- Models `HealthCheckResult`. -/
structure HealthCheckResult where
  isHealthy : Bool
  timestamp : Nat
deriving DecidableEq

/-! ## Association-list model of a JS `Map`

JS `Map.set` keeps the insertion position of an existing key and appends a
new key; `Map.get` and `Array.from(map.values()).find(...)` observe the
insertion order. -/

/-- Models `Map.set` on an insertion-ordered association list. -/
def mapSet {β : Type} (l : List (String × β)) (k : String) (v : β) : List (String × β) :=
  if l.any (fun p => p.1 == k) then
    l.map (fun p => if p.1 == k then (k, v) else p)
  else
    l ++ [(k, v)]

theorem lookup_replaceAll {β : Type} (t : List (String × β)) (k : String) (v : β)
    (h : t.any (fun p => p.1 == k) = true) :
    List.lookup k (t.map (fun p => if p.1 == k then (k, v) else p)) = some v := by
  induction t with
  | nil => simp at h
  | cons p t ih =>
    obtain ⟨pk, pv⟩ := p
    rw [List.map_cons]
    simp only [List.any_cons] at h
    cases hp : (pk == k) with
    | true =>
      rw [if_pos rfl]
      simp [List.lookup]
    | false =>
      rw [if_neg (by simp)]
      have hk : (k == pk) = false := by
        rw [beq_eq_false_iff_ne] at hp ⊢
        exact fun e => hp e.symm
      simp only [List.lookup, hk]
      apply ih
      simpa [hp] using h

theorem lookup_notfound_append {β : Type} (t : List (String × β)) (k : String) (v : β)
    (h : t.any (fun p => p.1 == k) = false) :
    List.lookup k (t ++ [(k, v)]) = some v := by
  induction t with
  | nil => simp [List.lookup]
  | cons p t ih =>
    obtain ⟨pk, pv⟩ := p
    simp only [List.any_cons, Bool.or_eq_false_iff] at h
    have hk : (k == pk) = false := by
      rw [beq_eq_false_iff_ne]
      intro e
      have := h.1
      rw [beq_eq_false_iff_ne] at this
      exact this e.symm
    simp only [List.cons_append, List.lookup, hk]
    exact ih h.2

theorem lookup_mapSet_self {β : Type} (l : List (String × β)) (k : String) (v : β) :
    List.lookup k (mapSet l k v) = some v := by
  rw [mapSet]
  cases h : l.any (fun p => p.1 == k) with
  | true =>
    rw [if_pos rfl]
    exact lookup_replaceAll l k v h
  | false =>
    rw [if_neg (by simp)]
    exact lookup_notfound_append l k v h

theorem mem_mapSet {β : Type} {l : List (String × β)} {k : String} {v : β}
    {p : String × β} (hp : p ∈ mapSet l k v) : p = (k, v) ∨ p ∈ l := by
  rw [mapSet] at hp
  by_cases h : l.any (fun q => q.1 == k) = true
  · rw [if_pos h] at hp
    obtain ⟨q, hq, hqe⟩ := List.mem_map.mp hp
    by_cases hqk : (q.1 == k) = true
    · rw [if_pos hqk] at hqe
      exact Or.inl hqe.symm
    · rw [if_neg hqk] at hqe
      exact Or.inr (hqe ▸ hq)
  · rw [if_neg h] at hp
    rcases List.mem_append.mp hp with hp | hp
    · exact Or.inr hp
    · exact Or.inl (List.mem_singleton.mp hp)

theorem lookup_mem {β : Type} {l : List (String × β)} {k : String} {v : β}
    (h : List.lookup k l = some v) : (k, v) ∈ l := by
  induction l with
  | nil => simp [List.lookup] at h
  | cons p t ih =>
    obtain ⟨pk, pv⟩ := p
    cases hk : (k == pk) with
    | true =>
      have hkp : k = pk := eq_of_beq hk
      simp only [List.lookup, hk] at h
      injection h with h2
      subst hkp
      rw [← h2]
      exact List.mem_cons_self _ _
    | false =>
      simp only [List.lookup, hk] at h
      exact List.mem_cons_of_mem _ (ih h)

/-! ## Health monitor (`src/services/SubgraphHealthMonitor.ts`) -/

/-- Monitor state: the `states` map plus the set of names with a scheduled
periodic probe timer (`healthCheckIntervals`). -/
structure Monitor where
  states : List (String × SubgraphState)
  intervals : List String
deriving DecidableEq

/-- The empty monitor. -/
def Monitor.empty : Monitor := ⟨[], []⟩

/-- Models `getState`. -/
def Monitor.getState (m : Monitor) (name : String) : Option SubgraphState :=
  List.lookup name m.states

/-- The initial state built inside `registerSubgraph`:
`isMocking = config.forceMock || !url ? true : false`, `status: 'unknown'`.
JS `!url` is true for a missing URL and for the falsy empty string, hence
`!(strTruthy url)`. -/
def initialState (name : String) (url : Option String) (config : SubgraphConfigItem) :
    SubgraphState :=
  { name := name
    url := url
    status := SubgraphStatus.unknown
    schemaSource :=
      if config.useLocalSchema then SchemaSource.localIntrospection
      else SchemaSource.apolloRegistry
    isMocking := config.forceMock || !(strTruthy url)
    isHealthy := false
    lastHealthCheck := none
    consecutiveFailures := 0
    config := config }

/-- Models the private `startHealthChecks(name)`: returns unchanged when the
state is missing or `healthCheckIntervalMs` is falsy; otherwise clears any
existing timer for `name` and installs a new one. -/
def Monitor.startHealthChecksOn (m : Monitor) (name : String) : Monitor :=
  match List.lookup name m.states with
  | none => m
  | some s =>
    if s.config.healthCheckIntervalMs == 0 then m
    else { m with intervals := (m.intervals.filter (fun n => n != name)) ++ [name] }

/-- Models `registerSubgraph`: store the initial state, then start periodic
checks unless `config.forceMock`. -/
def Monitor.registerSubgraph (m : Monitor) (name : String) (url : Option String)
    (config : SubgraphConfigItem) : Monitor :=
  let m' : Monitor := { m with states := mapSet m.states name (initialState name url config) }
  if config.forceMock then m' else m'.startHealthChecksOn name

/-- Models the body of `updateStateFromHealthCheck` acting on one state. -/
def applyHealthCheckResult (s : SubgraphState) (resultIsHealthy : Bool) (ts : Nat) :
    SubgraphState :=
  if resultIsHealthy then
    { s with
        isHealthy := true
        consecutiveFailures := 0
        status := SubgraphStatus.available
        lastHealthCheck := some ts
        isMocking := s.config.forceMock || false }
  else
    let cf := s.consecutiveFailures + 1
    let shouldMock :=
      s.config.forceMock ||
        (!s.config.disableMocking && decide (s.config.maxRetries ≤ cf))
    if shouldMock then
      { s with
          isHealthy := false
          consecutiveFailures := cf
          lastHealthCheck := some ts
          status := SubgraphStatus.mocking
          isMocking := true }
    else
      { s with
          isHealthy := false
          consecutiveFailures := cf
          lastHealthCheck := some ts
          status := SubgraphStatus.unavailable }

/-- Models `updateStateFromHealthCheck` on the monitor: no-op when the name
is not registered. -/
def Monitor.updateStateFromHealthCheck (m : Monitor) (name : String)
    (resultIsHealthy : Bool) (ts : Nat) : Monitor :=
  match List.lookup name m.states with
  | none => m
  | some s =>
    { m with states := mapSet m.states name (applyHealthCheckResult s resultIsHealthy ts) }

/-- Models `checkHealth`. The probe outcome (`checkEndpointHealth`, i.e.
whether the HTTP POST returned status 200) is supplied as `probeResult`;
when the state's URL is falsy (`state.url ? ... : false`, so missing or
the empty string) the code uses `false` without any HTTP request.
Returns the new monitor, the `HealthCheckResult` (or `none` when the name
is unregistered and the method throws), and whether an HTTP probe was
performed. -/
def Monitor.checkHealthFull (m : Monitor) (name : String) (probeResult : Bool) (ts : Nat) :
    Monitor × Option HealthCheckResult × Bool :=
  match List.lookup name m.states with
  | none => (m, none, false)
  | some s =>
    let performedProbe := strTruthy s.url
    let healthy := if strTruthy s.url then probeResult else false
    (m.updateStateFromHealthCheck name healthy ts,
      some { isHealthy := healthy, timestamp := ts }, performedProbe)

/-- State effect of `checkHealth` alone. -/
def Monitor.checkHealth (m : Monitor) (name : String) (probeResult : Bool) (ts : Nat) :
    Monitor :=
  (m.checkHealthFull name probeResult ts).1

/-- Models the body of `setHealth` acting on one state. -/
def applySetHealth (s : SubgraphState) (isHealthy : Bool) : SubgraphState :=
  if isHealthy then
    { s with
        isHealthy := true
        consecutiveFailures := 0
        status := SubgraphStatus.available
        isMocking := s.config.forceMock || false }
  else
    let cf := s.consecutiveFailures + 1
    if decide (s.config.maxRetries ≤ cf) && !s.config.disableMocking then
      { s with
          isHealthy := false
          consecutiveFailures := cf
          status := SubgraphStatus.mocking
          isMocking := true }
    else
      { s with
          isHealthy := false
          consecutiveFailures := cf
          status := SubgraphStatus.unavailable }

/-- Models `setHealth` on the monitor: no-op when the name is missing. -/
def Monitor.setHealth (m : Monitor) (name : String) (isHealthy : Bool) : Monitor :=
  match List.lookup name m.states with
  | none => m
  | some s => { m with states := mapSet m.states name (applySetHealth s isHealthy) }

/-- One external event of the health monitor. `check` carries the outcome
the HTTP probe would report and the wall-clock timestamp. -/
inductive MonitorEvent
  | register (name : String) (url : Option String) (config : SubgraphConfigItem)
  | check (name : String) (probeResult : Bool) (ts : Nat)
  | setHealth (name : String) (isHealthy : Bool)
deriving DecidableEq

/-- Transition function of the monitor. -/
def Monitor.step (m : Monitor) (e : MonitorEvent) : Monitor :=
  match e with
  | MonitorEvent.register n u c => m.registerSubgraph n u c
  | MonitorEvent.check n p t => m.checkHealth n p t
  | MonitorEvent.setHealth n h => m.setHealth n h

/-- Run a sequence of events from the empty monitor. -/
def runEvents (evs : List MonitorEvent) : Monitor :=
  evs.foldl Monitor.step Monitor.empty

/-! ## Reachable-state invariants of the health monitor -/

/-- Every state stored in the monitor satisfies `P`. -/
def MonitorOK (P : SubgraphState → Prop) (m : Monitor) : Prop :=
  ∀ p ∈ m.states, P p.2

theorem startHealthChecksOn_states (m : Monitor) (name : String) :
    (m.startHealthChecksOn name).states = m.states := by
  rw [Monitor.startHealthChecksOn]
  cases List.lookup name m.states with
  | none => rfl
  | some s =>
    by_cases h : (s.config.healthCheckIntervalMs == 0) = true
    · simp [h]
    · simp [h]

theorem registerSubgraph_states (m : Monitor) (n : String) (u : Option String)
    (c : SubgraphConfigItem) :
    (m.registerSubgraph n u c).states = mapSet m.states n (initialState n u c) := by
  rw [Monitor.registerSubgraph]
  by_cases h : c.forceMock = true
  · rw [if_pos h]
  · rw [if_neg h, startHealthChecksOn_states]

theorem monitorOK_step (P : SubgraphState → Prop)
    (hinit : ∀ n u c, P (initialState n u c))
    (hupd : ∀ s b t, P s → P (applyHealthCheckResult s b t))
    (hset : ∀ s b, P s → P (applySetHealth s b))
    (m : Monitor) (e : MonitorEvent) (hm : MonitorOK P m) :
    MonitorOK P (m.step e) := by
  cases e with
  | register n u c =>
    intro p hp
    rw [Monitor.step] at hp
    rw [registerSubgraph_states] at hp
    rcases mem_mapSet hp with h | h
    · rw [h]
      exact hinit n u c
    · exact hm p h
  | check n pr ts =>
    intro p hp
    rw [Monitor.step] at hp
    simp only [Monitor.checkHealth, Monitor.checkHealthFull] at hp
    cases hl : List.lookup n m.states with
    | none =>
      rw [hl] at hp
      exact hm p hp
    | some s =>
      rw [hl] at hp
      simp only [Monitor.updateStateFromHealthCheck, hl] at hp
      rcases mem_mapSet hp with h | h
      · rw [h]
        exact hupd s _ ts (hm (n, s) (lookup_mem hl))
      · exact hm p h
  | setHealth n b =>
    intro p hp
    rw [Monitor.step] at hp
    simp only [Monitor.setHealth] at hp
    cases hl : List.lookup n m.states with
    | none =>
      rw [hl] at hp
      exact hm p hp
    | some s =>
      rw [hl] at hp
      rcases mem_mapSet hp with h | h
      · rw [h]
        exact hset s b (hm (n, s) (lookup_mem hl))
      · exact hm p h

theorem monitorOK_run (P : SubgraphState → Prop)
    (hinit : ∀ n u c, P (initialState n u c))
    (hupd : ∀ s b t, P s → P (applyHealthCheckResult s b t))
    (hset : ∀ s b, P s → P (applySetHealth s b))
    (evs : List MonitorEvent) : MonitorOK P (runEvents evs) := by
  rw [runEvents]
  have main : ∀ m, MonitorOK P m → MonitorOK P (evs.foldl Monitor.step m) := by
    induction evs with
    | nil =>
      intro m hm
      exact hm
    | cons e t ih =>
      intro m hm
      exact ih _ (monitorOK_step P hinit hupd hset m e hm)
  apply main
  intro p hp
  simp [Monitor.empty] at hp

/-! ## Iterated probe failures -/

/-- Field effects of one failed probe result. -/
theorem applyFailure_fields (s : SubgraphState) (ts : Nat) :
    (applyHealthCheckResult s false ts).consecutiveFailures = s.consecutiveFailures + 1 ∧
    (applyHealthCheckResult s false ts).config = s.config ∧
    (applyHealthCheckResult s false ts).url = s.url ∧
    (applyHealthCheckResult s false ts).isHealthy = false := by
  by_cases h :
      (s.config.forceMock ||
        (!s.config.disableMocking &&
          decide (s.config.maxRetries ≤ s.consecutiveFailures + 1))) = true
  · simp [applyHealthCheckResult, h]
  · simp [applyHealthCheckResult, h]

/-- Field effects of one successful probe result. -/
theorem applySuccess_fields (s : SubgraphState) (ts : Nat) :
    (applyHealthCheckResult s true ts).isHealthy = true ∧
    (applyHealthCheckResult s true ts).consecutiveFailures = 0 ∧
    (applyHealthCheckResult s true ts).status = SubgraphStatus.available ∧
    (applyHealthCheckResult s true ts).isMocking = s.config.forceMock := by
  refine ⟨rfl, rfl, rfl, ?_⟩
  rw [applyHealthCheckResult]
  simp

/-- A failed probe result with the mocking condition met. -/
theorem applyFailure_shouldMock (s : SubgraphState) (ts : Nat)
    (h : (s.config.forceMock ||
        (!s.config.disableMocking &&
          decide (s.config.maxRetries ≤ s.consecutiveFailures + 1))) = true) :
    (applyHealthCheckResult s false ts).status = SubgraphStatus.mocking ∧
    (applyHealthCheckResult s false ts).isMocking = true := by
  simp [applyHealthCheckResult, h]

/-- A failed probe result with the mocking condition not met leaves
`isMocking` untouched. -/
theorem applyFailure_notShouldMock (s : SubgraphState) (ts : Nat)
    (h : ¬ (s.config.forceMock ||
        (!s.config.disableMocking &&
          decide (s.config.maxRetries ≤ s.consecutiveFailures + 1))) = true) :
    (applyHealthCheckResult s false ts).status = SubgraphStatus.unavailable ∧
    (applyHealthCheckResult s false ts).isMocking = s.isMocking := by
  simp [applyHealthCheckResult, h]

/-- Field effects of `setHealth(name, true)` on one state. -/
theorem applySetHealth_true_fields (s : SubgraphState) :
    (applySetHealth s true).isHealthy = true ∧
    (applySetHealth s true).consecutiveFailures = 0 ∧
    (applySetHealth s true).status = SubgraphStatus.available ∧
    (applySetHealth s true).isMocking = s.config.forceMock := by
  refine ⟨rfl, rfl, rfl, ?_⟩
  simp [applySetHealth]

/-- Field effects of `setHealth(name, false)` on one state. -/
theorem applySetHealth_false_fields (s : SubgraphState) :
    (applySetHealth s false).consecutiveFailures = s.consecutiveFailures + 1 ∧
    (applySetHealth s false).config = s.config ∧
    (applySetHealth s false).url = s.url ∧
    (applySetHealth s false).isHealthy = false := by
  by_cases h :
      (decide (s.config.maxRetries ≤ s.consecutiveFailures + 1) &&
        !s.config.disableMocking) = true
  · simp [applySetHealth, h]
  · simp [applySetHealth, h]

/-- Effect of `setHealth(name, false)` with the mocking condition met. -/
theorem applySetHealth_shouldMock (s : SubgraphState)
    (h : (decide (s.config.maxRetries ≤ s.consecutiveFailures + 1) &&
        !s.config.disableMocking) = true) :
    (applySetHealth s false).status = SubgraphStatus.mocking ∧
    (applySetHealth s false).isMocking = true := by
  simp [applySetHealth, h]

/-- Effect of `setHealth(name, false)` with the mocking condition not met: it leaves
`isMocking` untouched. -/
theorem applySetHealth_notShouldMock (s : SubgraphState)
    (h : ¬ (decide (s.config.maxRetries ≤ s.consecutiveFailures + 1) &&
        !s.config.disableMocking) = true) :
    (applySetHealth s false).status = SubgraphStatus.unavailable ∧
    (applySetHealth s false).isMocking = s.isMocking := by
  simp [applySetHealth, h]

/-- Fold one failed probe result per timestamp over a state. -/
def applyFailures (s : SubgraphState) (stamps : List Nat) : SubgraphState :=
  stamps.foldl (fun st t => applyHealthCheckResult st false t) s

theorem applyFailures_fields (s : SubgraphState) (stamps : List Nat) :
    (applyFailures s stamps).consecutiveFailures = s.consecutiveFailures + stamps.length ∧
    (applyFailures s stamps).config = s.config ∧
    (applyFailures s stamps).url = s.url := by
  induction stamps generalizing s with
  | nil => exact ⟨rfl, rfl, rfl⟩
  | cons t ts ih =>
    have h1 := applyFailure_fields s t
    have h2 := ih (applyHealthCheckResult s false t)
    refine ⟨?_, ?_, ?_⟩
    · show (applyFailures (applyHealthCheckResult s false t) ts).consecutiveFailures = _
      rw [h2.1, h1.1]
      simp only [List.length_cons]
      omega
    · show (applyFailures (applyHealthCheckResult s false t) ts).config = _
      rw [h2.2.1, h1.2.1]
    · show (applyFailures (applyHealthCheckResult s false t) ts).url = _
      rw [h2.2.2, h1.2.2.1]

/-- A failed probe result whose incremented counter reaches `maxRetries`
(with mocking allowed) moves the state to `mocking`. -/
theorem applyFailure_mocking (s : SubgraphState) (ts : Nat)
    (hd : s.config.disableMocking = false) (hf : s.config.forceMock = false)
    (hmr : s.config.maxRetries ≤ s.consecutiveFailures + 1) :
    (applyHealthCheckResult s false ts).status = SubgraphStatus.mocking ∧
    (applyHealthCheckResult s false ts).isMocking = true := by
  have h :
      (s.config.forceMock ||
        (!s.config.disableMocking &&
          decide (s.config.maxRetries ≤ s.consecutiveFailures + 1))) = true := by
    rw [hd, hf]
    simpa using hmr
  simp [applyHealthCheckResult, h]

/-- After at least one failed probe, with enough accumulated consecutive
failures, the state is `mocking`. -/
theorem applyFailures_mocking (s : SubgraphState) (stamps : List Nat)
    (hd : s.config.disableMocking = false) (hf : s.config.forceMock = false)
    (hmr : s.config.maxRetries ≤ s.consecutiveFailures + stamps.length)
    (h1 : 1 ≤ stamps.length) :
    (applyFailures s stamps).status = SubgraphStatus.mocking ∧
    (applyFailures s stamps).isMocking = true := by
  induction stamps generalizing s with
  | nil => simp at h1
  | cons t ts ih =>
    rcases ts with _ | ⟨t2, ts2⟩
    · show (applyHealthCheckResult s false t).status = _ ∧ _
      exact applyFailure_mocking s t hd hf (by simpa using hmr)
    · have hfields := applyFailure_fields s t
      show (applyFailures (applyHealthCheckResult s false t) (t2 :: ts2)).status = _ ∧ _
      apply ih
      · rw [hfields.2.1]
        exact hd
      · rw [hfields.2.1]
        exact hf
      · rw [hfields.2.1, hfields.1]
        simp only [List.length_cons] at hmr ⊢
        omega
      · simp

/-! ## Iterated `checkHealth` calls -/

/-- Fold a sequence of `checkHealth` calls (each carrying the probe outcome
and a timestamp) for one subgraph. -/
def runChecks (m : Monitor) (name : String) (calls : List (Bool × Nat)) : Monitor :=
  calls.foldl (fun acc c => acc.checkHealth name c.1 c.2) m

theorem checkHealthFull_noUrl (m : Monitor) (name : String) (s : SubgraphState)
    (pr : Bool) (ts : Nat) (hl : List.lookup name m.states = some s) (hu : s.url = none) :
    m.checkHealthFull name pr ts =
      ({ m with states := mapSet m.states name (applyHealthCheckResult s false ts) },
        some { isHealthy := false, timestamp := ts }, false) := by
  simp [Monitor.checkHealthFull, Monitor.updateStateFromHealthCheck, strTruthy, hl, hu]

theorem runChecks_noUrl (name : String) (calls : List (Bool × Nat)) :
    ∀ (m : Monitor) (s : SubgraphState), List.lookup name m.states = some s → s.url = none →
      List.lookup name (runChecks m name calls).states =
        some (applyFailures s (calls.map Prod.snd)) := by
  induction calls with
  | nil =>
    intro m s hl hu
    simpa [runChecks, applyFailures] using hl
  | cons c cs ih =>
    intro m s hl hu
    have hstep := checkHealthFull_noUrl m name s c.1 c.2 hl hu
    have hnext : List.lookup name (m.checkHealth name c.1 c.2).states =
        some (applyHealthCheckResult s false c.2) := by
      rw [Monitor.checkHealth, hstep]
      exact lookup_mapSet_self _ _ _
    have hurl : (applyHealthCheckResult s false c.2).url = none := by
      rw [(applyFailure_fields s c.2).2.2.1]
      exact hu
    exact ih (m.checkHealth name c.1 c.2) (applyHealthCheckResult s false c.2) hnext hurl

/-! ## Claim C2 -/

/-- C2: on probe success the state becomes `available` with `isHealthy = true`,
`consecutiveFailures = 0` and `isMocking = forceMock`; each probe failure
increments `consecutiveFailures`; and for a subgraph with
`disableMocking = false` and `forceMock = false`, after `N ≥ maxRetries`
consecutive probe failures (at least one) the status is `mocking` with
`isMocking = true`, and the next successful probe resets the state to
`available` with `consecutiveFailures = 0`. -/
theorem probe_completion_state_machine :
    (∀ (s : SubgraphState) (t : Nat),
       (applyHealthCheckResult s true t).isHealthy = true ∧
       (applyHealthCheckResult s true t).consecutiveFailures = 0 ∧
       (applyHealthCheckResult s true t).status = SubgraphStatus.available ∧
       (applyHealthCheckResult s true t).isMocking = s.config.forceMock) ∧
    (∀ (s : SubgraphState) (t : Nat),
       (applyHealthCheckResult s false t).consecutiveFailures = s.consecutiveFailures + 1) ∧
    (∀ (s : SubgraphState) (stamps : List Nat),
       s.config.disableMocking = false → s.config.forceMock = false →
       s.config.maxRetries ≤ stamps.length → 1 ≤ stamps.length →
       (applyFailures s stamps).status = SubgraphStatus.mocking ∧
       (applyFailures s stamps).isMocking = true ∧
       (∀ t : Nat,
          (applyHealthCheckResult (applyFailures s stamps) true t).status =
            SubgraphStatus.available ∧
          (applyHealthCheckResult (applyFailures s stamps) true t).consecutiveFailures = 0)) := by
  refine ⟨fun s t => applySuccess_fields s t, fun s t => (applyFailure_fields s t).1, ?_⟩
  intro s stamps hd hf hmr h1
  have hm := applyFailures_mocking s stamps hd hf (by omega) h1
  exact ⟨hm.1, hm.2,
    fun t => ⟨(applySuccess_fields _ t).2.2.1, (applySuccess_fields _ t).2.1⟩⟩

/-- Concrete state used to instantiate the health-monitor theorems. -/
def demoState : SubgraphState :=
  initialState "products" (some "http://products:4001") DEFAULT_SUBGRAPH_CONFIG

/-- Witness for C2 at a concrete subgraph state and two probe failures. -/
theorem probe_completion_state_machine_witness :
    (applyFailures demoState [5, 6]).status = SubgraphStatus.mocking ∧
    (applyFailures demoState [5, 6]).isMocking = true ∧
    (applyHealthCheckResult (applyFailures demoState [5, 6]) true 7).status =
      SubgraphStatus.available ∧
    (applyHealthCheckResult (applyFailures demoState [5, 6]) true 7).consecutiveFailures = 0 ∧
    (applyHealthCheckResult demoState true 3).isMocking = demoState.config.forceMock := by
  have h := probe_completion_state_machine
  have h3 := h.2.2 demoState [5, 6] (by decide) (by decide) (by decide) (by decide)
  exact ⟨h3.1, h3.2.1, (h3.2.2 7).1, (h3.2.2 7).2, (h.1 demoState 3).2.2.2⟩

/-! ## Claim C3 -/

/-- A configuration with `forceMock = true` (otherwise the defaults). -/
def forceMockConfig : SubgraphConfigItem :=
  { forceMock := true
    disableMocking := false
    useLocalSchema := false
    schemaFile := none
    introspectionHeaders := []
    maxRetries := 2
    retryDelayMs := 1000
    healthCheckIntervalMs := 30000 }

/-- C3 counterexample: immediately after registering a `forceMock` subgraph
its stored status is `unknown`, not `mocking`, refuting the claim that
`status = mocking` holds from the moment of registration onward. -/
theorem forceMock_registration_status_counterexample :
    Monitor.getState
        (runEvents [MonitorEvent.register "products" (some "http://products:4001")
          forceMockConfig]) "products" =
      some (initialState "products" (some "http://products:4001") forceMockConfig) ∧
    (initialState "products" (some "http://products:4001") forceMockConfig).isMocking = true ∧
    (initialState "products" (some "http://products:4001") forceMockConfig).status ≠
      SubgraphStatus.mocking := by
  decide

/-- C3 (amended): for a `forceMock` subgraph, `isMocking = true` holds in
every reachable monitor state from registration onward and registration
schedules no probe timer; but `status` at registration is `unknown`, not
`mocking` (it changes only on later probe results or `setHealth` calls). -/
theorem forceMock_invariant_amended :
    (∀ evs : List MonitorEvent, ∀ p ∈ (runEvents evs).states,
       p.2.config.forceMock = true → p.2.isMocking = true) ∧
    (∀ (m : Monitor) (name : String) (url : Option String) (cfg : SubgraphConfigItem),
       cfg.forceMock = true →
       (m.registerSubgraph name url cfg).intervals = m.intervals ∧
       Monitor.getState (m.registerSubgraph name url cfg) name =
         some (initialState name url cfg)) ∧
    (∀ (name : String) (url : Option String) (cfg : SubgraphConfigItem),
       (initialState name url cfg).status = SubgraphStatus.unknown) := by
  refine ⟨?_, ?_, fun _ _ _ => rfl⟩
  · intro evs
    refine monitorOK_run (fun s => s.config.forceMock = true → s.isMocking = true)
      ?_ ?_ ?_ evs
    · intro n u c hc
      have hc' : c.forceMock = true := hc
      show (c.forceMock || !(strTruthy u)) = true
      rw [hc']
      simp
    · intro s b t hP hc
      cases b with
      | true =>
        have hc' : s.config.forceMock = true := hc
        rw [(applySuccess_fields s t).2.2.2]
        exact hc'
      | false =>
        rw [(applyFailure_fields s t).2.1] at hc
        have h :
            (s.config.forceMock ||
              (!s.config.disableMocking &&
                decide (s.config.maxRetries ≤ s.consecutiveFailures + 1))) = true := by
          rw [hc]
          simp
        exact (applyFailure_shouldMock s t h).2
    · intro s b hP hc
      cases b with
      | true =>
        have hc' : s.config.forceMock = true := hc
        rw [(applySetHealth_true_fields s).2.2.2]
        exact hc'
      | false =>
        rw [(applySetHealth_false_fields s).2.1] at hc
        by_cases h :
            (decide (s.config.maxRetries ≤ s.consecutiveFailures + 1) &&
              !s.config.disableMocking) = true
        · exact (applySetHealth_shouldMock s h).2
        · rw [(applySetHealth_notShouldMock s h).2]
          exact hP hc
  · intro m name url cfg hc
    constructor
    · rw [Monitor.registerSubgraph]
      simp [hc]
    · rw [Monitor.getState, registerSubgraph_states]
      exact lookup_mapSet_self _ _ _

/-- Witness for C3 (amended) at a concrete `forceMock` registration. -/
theorem forceMock_invariant_amended_witness :
    (initialState "products" (some "u") forceMockConfig).isMocking = true ∧
    (Monitor.empty.registerSubgraph "products" (some "u") forceMockConfig).intervals =
      Monitor.empty.intervals ∧
    (initialState "products" (some "u") forceMockConfig).status = SubgraphStatus.unknown := by
  have h := forceMock_invariant_amended
  refine ⟨?_, (h.2.1 Monitor.empty "products" (some "u") forceMockConfig rfl).1,
    h.2.2 "products" (some "u") forceMockConfig⟩
  exact h.1 [MonitorEvent.register "products" (some "u") forceMockConfig]
    ("products", initialState "products" (some "u") forceMockConfig) (by decide) rfl

/-! ## Claim C4 -/

/-- The amended mocking invariant: a mocking state is justified by
`forceMock`, by a falsy URL (missing or the empty string, the registration
cases where JS `!url` holds), or by exhausted retries with mocking
allowed. -/
def MockingJustified (s : SubgraphState) : Prop :=
  s.isMocking = true →
    s.config.forceMock = true ∨ strTruthy s.url = false ∨
      (s.config.disableMocking = false ∧
        s.config.maxRetries ≤ s.consecutiveFailures)

/-- C4 counterexample: registering a subgraph with no URL and the default
configuration yields a reachable state with `isMocking = true` although
`forceMock` is false and `consecutiveFailures = 0 < maxRetries`. -/
theorem mocking_invariant_counterexample :
    Monitor.getState (runEvents [MonitorEvent.register "orders" none DEFAULT_SUBGRAPH_CONFIG])
        "orders" =
      some (initialState "orders" none DEFAULT_SUBGRAPH_CONFIG) ∧
    (initialState "orders" none DEFAULT_SUBGRAPH_CONFIG).isMocking = true ∧
    (initialState "orders" none DEFAULT_SUBGRAPH_CONFIG).config.forceMock = false ∧
    ¬((initialState "orders" none DEFAULT_SUBGRAPH_CONFIG).config.disableMocking = false ∧
      (initialState "orders" none DEFAULT_SUBGRAPH_CONFIG).config.maxRetries ≤
        (initialState "orders" none DEFAULT_SUBGRAPH_CONFIG).consecutiveFailures) := by
  decide

/-- C4 (amended): in every reachable state of the health monitor, a subgraph
with `isMocking = true` has `forceMock = true`, or was registered with a
falsy URL (undefined or the empty string), or has `disableMocking = false`
and `consecutiveFailures ≥ maxRetries`. -/
theorem mocking_invariant_amended (evs : List MonitorEvent) :
    ∀ p ∈ (runEvents evs).states, MockingJustified p.2 := by
  refine monitorOK_run MockingJustified ?_ ?_ ?_ evs
  · intro n u c hm
    have hm' : (c.forceMock || !(strTruthy u)) = true := hm
    cases hcf : c.forceMock with
    | true => exact Or.inl hcf
    | false =>
      rw [hcf] at hm'
      simp only [Bool.false_or, Bool.not_eq_true'] at hm'
      exact Or.inr (Or.inl hm')
  · intro s b t hP
    cases b with
    | true =>
      intro hm
      have hm' : (s.config.forceMock || false) = true := hm
      exact Or.inl (show s.config.forceMock = true by simpa using hm')
    | false =>
      have hflds := applyFailure_fields s t
      by_cases h :
          (s.config.forceMock ||
            (!s.config.disableMocking &&
              decide (s.config.maxRetries ≤ s.consecutiveFailures + 1))) = true
      · intro _
        cases hfm : s.config.forceMock with
        | true =>
          refine Or.inl ?_
          rw [hflds.2.1]
          exact hfm
        | false =>
          rw [hfm] at h
          simp only [Bool.false_or, Bool.and_eq_true, Bool.not_eq_true',
            decide_eq_true_eq] at h
          refine Or.inr (Or.inr ⟨?_, ?_⟩)
          · rw [hflds.2.1]
            exact h.1
          · rw [hflds.2.1, hflds.1]
            exact h.2
      · intro hm
        rw [(applyFailure_notShouldMock s t h).2] at hm
        rcases hP hm with h1 | h1 | h1
        · refine Or.inl ?_
          rw [hflds.2.1]
          exact h1
        · refine Or.inr (Or.inl ?_)
          rw [hflds.2.2.1]
          exact h1
        · refine Or.inr (Or.inr ⟨?_, ?_⟩)
          · rw [hflds.2.1]
            exact h1.1
          · rw [hflds.2.1, hflds.1]
            exact Nat.le_succ_of_le h1.2
  · intro s b hP
    cases b with
    | true =>
      intro hm
      rw [(applySetHealth_true_fields s).2.2.2] at hm
      exact Or.inl hm
    | false =>
      have hflds := applySetHealth_false_fields s
      by_cases h :
          (decide (s.config.maxRetries ≤ s.consecutiveFailures + 1) &&
            !s.config.disableMocking) = true
      · intro _
        simp only [Bool.and_eq_true, Bool.not_eq_true', decide_eq_true_eq] at h
        refine Or.inr (Or.inr ⟨?_, ?_⟩)
        · rw [hflds.2.1]
          exact h.2
        · rw [hflds.2.1, hflds.1]
          exact h.1
      · intro hm
        rw [(applySetHealth_notShouldMock s h).2] at hm
        rcases hP hm with h1 | h1 | h1
        · refine Or.inl ?_
          rw [hflds.2.1]
          exact h1
        · refine Or.inr (Or.inl ?_)
          rw [hflds.2.2.1]
          exact h1
        · refine Or.inr (Or.inr ⟨?_, ?_⟩)
          · rw [hflds.2.1]
            exact h1.1
          · rw [hflds.2.1, hflds.1]
            exact Nat.le_succ_of_le h1.2

/-- Witness for C4 (amended) at a concrete reachable mocking state,
registered with the falsy empty-string URL. -/
theorem mocking_invariant_amended_witness :
    (initialState "orders" (some "") DEFAULT_SUBGRAPH_CONFIG).config.forceMock = true ∨
    strTruthy (initialState "orders" (some "") DEFAULT_SUBGRAPH_CONFIG).url = false ∨
    ((initialState "orders" (some "") DEFAULT_SUBGRAPH_CONFIG).config.disableMocking = false ∧
      (initialState "orders" (some "") DEFAULT_SUBGRAPH_CONFIG).config.maxRetries ≤
        (initialState "orders" (some "") DEFAULT_SUBGRAPH_CONFIG).consecutiveFailures) :=
  mocking_invariant_amended
    [MonitorEvent.register "orders" (some "") DEFAULT_SUBGRAPH_CONFIG]
    ("orders", initialState "orders" (some "") DEFAULT_SUBGRAPH_CONFIG) (by decide) rfl

/-! ## Claim C9 -/

/-- C9: for a registered subgraph with no URL and `forceMock = false`, every
`checkHealth` call performs no HTTP probe, reports `isHealthy = false`, and
increments `consecutiveFailures`; consequently, with `disableMocking = false`
and `maxRetries ≥ 1`, after `maxRetries` such calls from registration the
status is `mocking`. -/
theorem no_url_checkHealth :
    (∀ (m : Monitor) (name : String) (s : SubgraphState) (pr : Bool) (ts : Nat),
       Monitor.getState m name = some s → s.url = none → s.config.forceMock = false →
       (m.checkHealthFull name pr ts).2.2 = false ∧
       (m.checkHealthFull name pr ts).2.1 = some { isHealthy := false, timestamp := ts } ∧
       Monitor.getState (m.checkHealthFull name pr ts).1 name =
         some (applyHealthCheckResult s false ts) ∧
       (applyHealthCheckResult s false ts).isHealthy = false ∧
       (applyHealthCheckResult s false ts).consecutiveFailures = s.consecutiveFailures + 1) ∧
    (∀ (m : Monitor) (name : String) (cfg : SubgraphConfigItem) (calls : List (Bool × Nat)),
       cfg.forceMock = false → cfg.disableMocking = false →
       1 ≤ cfg.maxRetries → calls.length = cfg.maxRetries →
       ∃ s, Monitor.getState (runChecks (m.registerSubgraph name none cfg) name calls) name =
           some s ∧
         s.status = SubgraphStatus.mocking ∧ s.isMocking = true) := by
  constructor
  · intro m name s pr ts hl hu _
    have hstep := checkHealthFull_noUrl m name s pr ts hl hu
    have hfields := applyFailure_fields s ts
    refine ⟨?_, ?_, ?_, hfields.2.2.2, hfields.1⟩
    · rw [hstep]
    · rw [hstep]
    · rw [hstep]
      exact lookup_mapSet_self _ _ _
  · intro m name cfg calls hf hd h1 hlen
    have hreg : List.lookup name (m.registerSubgraph name none cfg).states =
        some (initialState name none cfg) := by
      rw [registerSubgraph_states]
      exact lookup_mapSet_self _ _ _
    have hrun := runChecks_noUrl name calls (m.registerSubgraph name none cfg)
      (initialState name none cfg) hreg rfl
    refine ⟨applyFailures (initialState name none cfg) (calls.map Prod.snd), hrun, ?_⟩
    have hmock := applyFailures_mocking (initialState name none cfg) (calls.map Prod.snd)
      hd hf (by simp [initialState, List.length_map, hlen]) (by simp [List.length_map]; omega)
    exact hmock

/-- Witness for C9 at a concrete registration with no URL and two calls. -/
theorem no_url_checkHealth_witness :
    ∃ s, Monitor.getState
        (runChecks (Monitor.empty.registerSubgraph "orders" none DEFAULT_SUBGRAPH_CONFIG)
          "orders" [(true, 1), (true, 2)]) "orders" = some s ∧
      s.status = SubgraphStatus.mocking ∧ s.isMocking = true :=
  no_url_checkHealth.2 Monitor.empty "orders" DEFAULT_SUBGRAPH_CONFIG [(true, 1), (true, 2)]
    rfl rfl (by decide) rfl

/-! ## Subgraph registry (`SubgraphRegistry`) -/

/-- The registry: insertion-ordered `(name, url)` entries (each
`SubgraphInfo` holds only its name and URL) plus the shared health
monitor that the `SubgraphInfo` getters delegate to. -/
structure SubgraphRegistry where
  entries : List (String × Option String)
  monitor : Monitor
deriving DecidableEq

/-- Models `getSubgraphByName` (a `Map.get`). -/
def SubgraphRegistry.getSubgraphByName (r : SubgraphRegistry) (name : String) :
    Option (String × Option String) :=
  r.entries.find? (fun p => p.1 == name)

/-- Models `getSubgraphByUrl`: the first registered entry whose `url` field
is strictly equal to the argument. -/
def SubgraphRegistry.getSubgraphByUrl (r : SubgraphRegistry) (url : Option String) :
    Option (String × Option String) :=
  r.entries.find? (fun p => p.2 == url)

/-- Models `SubgraphInfo.isMocking`: the monitor state's flag, defaulting to
`false` when the name is not in the monitor. -/
def SubgraphRegistry.infoIsMocking (r : SubgraphRegistry) (name : String) : Bool :=
  match r.monitor.getState name with
  | some s => s.isMocking
  | none => false

/-- Models `SubgraphInfo.isAvailable` (the cached `isHealthy`). -/
def SubgraphRegistry.infoIsAvailable (r : SubgraphRegistry) (name : String) : Bool :=
  match r.monitor.getState name with
  | some s => s.isHealthy
  | none => false

/-- Models `isSubgraphAvailable(url)`: for a URL matching a registered
subgraph, return its cached availability; otherwise perform a one-time
probe (`checkEndpointHealth`), modelled by the oracle `probe` which reports
whether the endpoint answered HTTP 200 within the health timeout. -/
def SubgraphRegistry.isSubgraphAvailable (r : SubgraphRegistry) (probe : String → Bool)
    (url : Option String) : Bool :=
  match r.getSubgraphByUrl url with
  | some p => r.infoIsAvailable p.1
  | none =>
    match url with
    | some u => probe u
    | none => false

/-- The subgraph resolution step of `shouldPassthroughToSubgraph`: by name
when the name is truthy, else by URL when the URL is truthy. -/
def resolveSubgraph (r : SubgraphRegistry) (name url : Option String) :
    Option (String × Option String) :=
  if strTruthy name then r.getSubgraphByName (name.getD "")
  else if strTruthy url then r.getSubgraphByUrl url
  else none

/-- Models `shouldPassthroughToSubgraph(name, url)`. The global flag
`isPassthroughEnabled()` and the probe oracle are passed explicitly. -/
def SubgraphRegistry.shouldPassthroughToSubgraph (passthroughEnabled : Bool)
    (r : SubgraphRegistry) (probe : String → Bool) (name url : Option String) : Bool :=
  if !passthroughEnabled then false
  else
    match resolveSubgraph r name url with
    | none => false
    | some p => if r.infoIsMocking p.1 then false else r.isSubgraphAvailable probe p.2

/-- The cached availability of the first registered entry sharing the given
URL (never a live probe). -/
def SubgraphRegistry.cachedUrlAvailability (r : SubgraphRegistry) (url : Option String) :
    Bool :=
  match r.getSubgraphByUrl url with
  | some p => r.infoIsAvailable p.1
  | none => false

/-- Concrete fixtures refuting the live-probe reading of the routing
predicate: one registered subgraph, cached unhealthy and not mocking. -/
def c1State : SubgraphState :=
  { name := "products"
    url := some "http://products:4001"
    status := SubgraphStatus.unavailable
    schemaSource := SchemaSource.apolloRegistry
    isMocking := false
    isHealthy := false
    lastHealthCheck := some 10
    consecutiveFailures := 1
    config := DEFAULT_SUBGRAPH_CONFIG }

/-- Registry fixture holding exactly `c1State`. -/
def c1Registry : SubgraphRegistry :=
  { entries := [("products", some "http://products:4001")]
    monitor := { states := [("products", c1State)], intervals := [] } }

/-- Probe oracle for which every live probe reports HTTP 200. -/
def c1Probe : String → Bool := fun _ => true

/-- C1 counterexample: with passthrough enabled, the resolved subgraph not
mocking, and a live probe of the target URL reporting 200, the claimed
predicate is true, yet `shouldPassthroughToSubgraph` returns false because
it only consults the cached `isHealthy` of the registered subgraph. -/
theorem shouldPassthrough_live_probe_counterexample :
    SubgraphRegistry.shouldPassthroughToSubgraph true c1Registry c1Probe
        (some "products") (some "http://products:4001") = false ∧
    c1Registry.infoIsMocking "products" = false ∧
    c1Probe "http://products:4001" = true ∧
    (true && !c1Registry.infoIsMocking "products" &&
      (c1Probe "http://products:4001" || c1Registry.infoIsAvailable "products")) = true := by
  exact ⟨rfl, rfl, rfl, rfl⟩

/-- C1 (amended): `shouldPassthroughToSubgraph` is true iff passthrough is
enabled, a subgraph resolves (by name, else by URL), its cached state is
not mocking, and the cached `isHealthy` of the first registered entry
sharing the resolved subgraph's URL is true; no live probe of the target
URL is ever consulted. -/
theorem shouldPassthrough_characterization (passthroughEnabled : Bool)
    (r : SubgraphRegistry) (probe : String → Bool) (name url : Option String) :
    SubgraphRegistry.shouldPassthroughToSubgraph passthroughEnabled r probe name url =
      (passthroughEnabled &&
        (match resolveSubgraph r name url with
         | none => false
         | some p => !(r.infoIsMocking p.1) && r.cachedUrlAvailability p.2)) := by
  rw [SubgraphRegistry.shouldPassthroughToSubgraph]
  cases passthroughEnabled with
  | false => rfl
  | true =>
    simp only [Bool.not_true, Bool.false_eq_true, if_false, Bool.true_and]
    cases hres : resolveSubgraph r name url with
    | none => rfl
    | some p =>
      have hmem : p ∈ r.entries := by
        rw [resolveSubgraph] at hres
        by_cases hn : strTruthy name = true
        · rw [if_pos hn] at hres
          exact List.mem_of_find?_eq_some hres
        · rw [if_neg hn] at hres
          by_cases hu : strTruthy url = true
          · rw [if_pos hu] at hres
            exact List.mem_of_find?_eq_some hres
          · rw [if_neg hu] at hres
            cases hres
      have hfind : (r.getSubgraphByUrl p.2).isSome = true := by
        rw [SubgraphRegistry.getSubgraphByUrl, List.find?_isSome]
        exact ⟨p, hmem, beq_self_eq_true p.2⟩
      show (if r.infoIsMocking p.1 = true then false else r.isSubgraphAvailable probe p.2) =
        (!r.infoIsMocking p.1 && r.cachedUrlAvailability p.2)
      cases hmk : r.infoIsMocking p.1 with
      | true => simp
      | false =>
        simp only [Bool.false_eq_true, if_false, Bool.not_false, Bool.true_and]
        cases hbu : r.getSubgraphByUrl p.2 with
        | none =>
          rw [hbu] at hfind
          simp at hfind
        | some q =>
          simp [SubgraphRegistry.isSubgraphAvailable,
            SubgraphRegistry.cachedUrlAvailability, hbu]

/-! ## Schema cache (`src/services/SchemaCache.ts`) -/

/-- Model of a built `GraphQLSchema` object (`buildSubgraphSchema` output);
identified by the SDL it was built from. -/
structure BuiltSchema where
  sdlSource : String
deriving DecidableEq

/-- Models `CachedSchemaEntry`. -/
structure CachedSchemaEntry where
  schema : BuiltSchema
  sdl : String
  version : String
  lastFetched : Nat
  expiresAt : Nat
deriving DecidableEq

/-- Models the `SchemaCache` instance fields: the entry map, the registered
subgraph configs (`setSubgraphConfig`), and the TTL. -/
structure SchemaCache where
  cache : List (String × CachedSchemaEntry)
  subgraphConfigs : List (String × (SubgraphConfigItem × Option String))
  ttlMs : Nat
deriving DecidableEq

/-- External collaborators of the schema loader, supplied as oracles:
file reads, the introspection service (already including its
`!result.success || !result.sdl` check), the Apollo registry client
(returning SDL and version), schema building (`parse` +
`buildSubgraphSchema`, which can throw on bad SDL), and the SHA-256
version hash. -/
structure SchemaLoadOracles where
  readFile : String → Except String String
  introspectSdl : String → SubgraphConfigItem → Except String String
  fetchApolloSchema : String → Except String (String × String)
  buildSchema : String → Except String BuiltSchema
  generateSchemaHash : String → String

/-- Models the source-selection part of `loadAndCacheSchema`:
`schemaFile` first, then introspection when `useLocalSchema` and a URL
exist, an error when `useLocalSchema` without URL, else Apollo. Returns
`(schema, sdl, version)`. -/
def loadSchemaFromSource (o : SchemaLoadOracles) (c : SchemaCache) (name : String) :
    Except String (BuiltSchema × String × String) :=
  let cfgInfo := List.lookup name c.subgraphConfigs
  let cfg := cfgInfo.map Prod.fst
  let url := cfgInfo.bind Prod.snd
  if strTruthy (cfg.bind (fun i => i.schemaFile)) then
    match o.readFile ((cfg.bind (fun i => i.schemaFile)).getD "") with
    | Except.error e => Except.error e
    | Except.ok sdl =>
      match o.buildSchema sdl with
      | Except.error e => Except.error e
      | Except.ok schema => Except.ok (schema, sdl, o.generateSchemaHash sdl)
  else if (cfg.map (fun i => i.useLocalSchema)).getD false && strTruthy url then
    match o.introspectSdl (url.getD "") (cfg.getD DEFAULT_SUBGRAPH_CONFIG) with
    | Except.error e => Except.error e
    | Except.ok sdl =>
      match o.buildSchema sdl with
      | Except.error e => Except.error e
      | Except.ok schema => Except.ok (schema, sdl, o.generateSchemaHash sdl)
  else if (cfg.map (fun i => i.useLocalSchema)).getD false && !strTruthy url then
    Except.error ("Cannot use local schema for " ++ name ++
      ": no URL available and no schemaFile configured.")
  else
    match o.fetchApolloSchema name with
    | Except.error e => Except.error e
    | Except.ok res =>
      match o.buildSchema res.1 with
      | Except.error e => Except.error e
      | Except.ok schema => Except.ok (schema, res.1, res.2)

/-- Models `loadAndCacheSchema`: load from the configured source, then store
an entry with `lastFetched = now` and `expiresAt = now + ttlMs`. -/
def loadAndCacheSchema (o : SchemaLoadOracles) (c : SchemaCache) (name : String)
    (now : Nat) : Except String (BuiltSchema × SchemaCache) :=
  match loadSchemaFromSource o c name with
  | Except.error e => Except.error e
  | Except.ok res =>
    let entry : CachedSchemaEntry :=
      { schema := res.1
        sdl := res.2.1
        version := res.2.2
        lastFetched := now
        expiresAt := now + c.ttlMs }
    Except.ok (res.1, { c with cache := mapSet c.cache name entry })

/-- Models `has`: an entry exists and `expiresAt > now`. -/
def SchemaCache.has (c : SchemaCache) (name : String) (now : Nat) : Bool :=
  match List.lookup name c.cache with
  | none => false
  | some e => decide (now < e.expiresAt)

/-- Models `getSchema`: return the cached built schema when the entry is
unexpired, otherwise load and cache from the configured source. -/
def SchemaCache.getSchema (o : SchemaLoadOracles) (c : SchemaCache) (name : String)
    (now : Nat) : Except String (BuiltSchema × SchemaCache) :=
  match List.lookup name c.cache with
  | some e =>
    if now < e.expiresAt then Except.ok (e.schema, c)
    else loadAndCacheSchema o c name now
  | none => loadAndCacheSchema o c name now

/-- C5: an entry stored at time `t` with TTL `T` makes `Has` true for reads
in `[t, t+T)` and false from `t+T` on; `getSchema` returns the cached
compiled schema exactly when an unexpired entry exists, and otherwise loads
from the configured source, storing a fresh entry with
`expiresAt = lastFetched + TTL`. -/
theorem schema_cache_ttl :
    (∀ (c : SchemaCache) (name : String) (e : CachedSchemaEntry) (now : Nat),
       List.lookup name c.cache = some e →
       e.expiresAt = e.lastFetched + c.ttlMs →
       (e.lastFetched ≤ now → now < e.lastFetched + c.ttlMs →
         c.has name now = true) ∧
       (e.lastFetched + c.ttlMs ≤ now → c.has name now = false)) ∧
    (∀ (o : SchemaLoadOracles) (c : SchemaCache) (name : String) (now : Nat),
       (c.has name now = true →
         ∃ e, List.lookup name c.cache = some e ∧
           SchemaCache.getSchema o c name now = Except.ok (e.schema, c)) ∧
       (c.has name now = false →
         SchemaCache.getSchema o c name now = loadAndCacheSchema o c name now)) ∧
    (∀ (o : SchemaLoadOracles) (c : SchemaCache) (name : String) (now : Nat)
       (schema : BuiltSchema) (c' : SchemaCache),
       loadAndCacheSchema o c name now = Except.ok (schema, c') →
       ∃ e, List.lookup name c'.cache = some e ∧ e.schema = schema ∧
         e.lastFetched = now ∧ e.expiresAt = now + c.ttlMs) := by
  refine ⟨?_, ?_, ?_⟩
  · intro c name e now hl he
    constructor
    · intro h1 h2
      simp only [SchemaCache.has, hl, he, decide_eq_true_eq]
      exact h2
    · intro h1
      simp only [SchemaCache.has, hl, he]
      exact decide_eq_false (by omega)
  · intro o c name now
    constructor
    · intro hhas
      cases hl : List.lookup name c.cache with
      | none => simp [SchemaCache.has, hl] at hhas
      | some e =>
        simp only [SchemaCache.has, hl, decide_eq_true_eq] at hhas
        refine ⟨e, rfl, ?_⟩
        simp [SchemaCache.getSchema, hl, hhas]
    · intro hhas
      cases hl : List.lookup name c.cache with
      | none => simp [SchemaCache.getSchema, hl]
      | some e =>
        simp only [SchemaCache.has, hl] at hhas
        have hlt : ¬ now < e.expiresAt := of_decide_eq_false hhas
        simp [SchemaCache.getSchema, hl, hlt]
  · intro o c name now schema c' hload
    cases hsrc : loadSchemaFromSource o c name with
    | error e =>
      simp only [loadAndCacheSchema, hsrc] at hload
      exact Except.noConfusion hload
    | ok res =>
      simp only [loadAndCacheSchema, hsrc, Except.ok.injEq, Prod.mk.injEq] at hload
      obtain ⟨he1, he2⟩ := hload
      subst he2
      subst he1
      exact ⟨_, lookup_mapSet_self _ _ _, rfl, rfl, rfl⟩

/-- Fixture oracles for the schema-cache witness. -/
def demoOracles : SchemaLoadOracles :=
  { readFile := fun _ => Except.ok "type Query"
    introspectSdl := fun _ _ => Except.ok "type Query"
    fetchApolloSchema := fun name => Except.ok ("type Query", name ++ "-v1")
    buildSchema := fun sdl => Except.ok { sdlSource := sdl }
    generateSchemaHash := fun sdl => toString sdl.length }

/-- Fixture cached entry stored at time 100 with TTL 50. -/
def demoEntry : CachedSchemaEntry :=
  { schema := { sdlSource := "type Query" }
    sdl := "type Query"
    version := "v1"
    lastFetched := 100
    expiresAt := 150 }

/-- Fixture cache holding `demoEntry` under `products`. -/
def demoCache : SchemaCache :=
  { cache := [("products", demoEntry)], subgraphConfigs := [], ttlMs := 50 }

/-- Witness for C5 at the concrete fixture cache. -/
theorem schema_cache_ttl_witness :
    demoCache.has "products" 120 = true ∧
    demoCache.has "products" 150 = false ∧
    (∃ e, List.lookup "products" demoCache.cache = some e ∧
      SchemaCache.getSchema demoOracles demoCache "products" 120 =
        Except.ok (e.schema, demoCache)) ∧
    (∃ e, List.lookup "reviews"
        ((loadAndCacheSchema demoOracles demoCache "reviews" 200).toOption.map Prod.snd
          |>.getD demoCache).cache = some e ∧
      e.schema = { sdlSource := "type Query" } ∧ e.lastFetched = 200 ∧
      e.expiresAt = 200 + demoCache.ttlMs) := by
  have h := schema_cache_ttl
  have h1 := h.1 demoCache "products" demoEntry 120 rfl rfl
  have h2 := h.1 demoCache "products" demoEntry 150 rfl rfl
  refine ⟨h1.1 (by decide) (by decide), h2.2 (by decide), ?_, ?_⟩
  · exact (h.2.1 demoOracles demoCache "products" 120).1 (h1.1 (by decide) (by decide))
  · exact h.2.2 demoOracles demoCache "reviews" 200 { sdlSource := "type Query" }
      ((loadAndCacheSchema demoOracles demoCache "reviews" 200).toOption.map Prod.snd
        |>.getD demoCache) rfl

/-! ## Introspection service (`src/services/IntrospectionService.ts`) -/

/-- Models `RetryConfig`. -/
structure RetryConfig where
  maxRetries : Nat
  retryDelayMs : Nat
deriving DecidableEq

/-- The per-attempt timeout `INTROSPECTION_TIMEOUT_MS`. -/
def introspectionTimeoutMs : Nat := 10000

/-- The shape of one HTTP response body as accessed by
`performIntrospection`: `response.data?.data` falsy; `data` present but
`_service` null/undefined (so `._service.sdl` throws); or `_service`
present with its `sdl` field (possibly undefined, modelled as `none`). -/
inductive IntroBody
  | missingData
  | nullService
  | withService (sdl : Option String)
deriving DecidableEq

/-- A thrown error as later classified by `getErrorMessage`: an axios error
with optional `code` and optional `response` `(status, statusText)`; a
plain `Error` with a message; or a non-`Error` value. -/
inductive IntroError
  | axios (code : Option String) (response : Option (Nat × String)) (message : String)
  | plain (message : String)
  | other
deriving DecidableEq

/-- Outcome of one `axios.post` call: an HTTP response body, or a thrown
error. -/
inductive IntroAttempt
  | resolved (body : IntroBody)
  | rejected (e : IntroError)
deriving DecidableEq

/-- Models `performIntrospection` on one attempt outcome: throws on a
missing `data` object or a null `_service`, otherwise returns
`data._service.sdl` exactly as received (no emptiness check). -/
def performIntrospection : IntroAttempt → Except IntroError (Option String)
  | IntroAttempt.rejected e => Except.error e
  | IntroAttempt.resolved IntroBody.missingData =>
    Except.error (IntroError.plain "Invalid introspection response: missing data")
  | IntroAttempt.resolved IntroBody.nullService =>
    Except.error (IntroError.plain "Cannot read properties of null")
  | IntroAttempt.resolved (IntroBody.withService sdl) => Except.ok sdl

/-- Whether one attempt outcome makes `performIntrospection` succeed. -/
def performOk (a : IntroAttempt) : Bool :=
  match performIntrospection a with
  | Except.ok _ => true
  | Except.error _ => false

/-- Models `getErrorMessage`. -/
def getErrorMessage : IntroError → String
  | IntroError.axios code response message =>
    if code == some "ECONNREFUSED" then "Connection refused - endpoint may not be running"
    else if code == some "ETIMEDOUT" || code == some "ECONNABORTED" then
      "Request timeout after " ++ toString introspectionTimeoutMs ++ "ms"
    else
      match response with
      | some r => "HTTP " ++ toString r.1 ++ ": " ++ r.2
      | none => message
  | IntroError.plain message => message
  | IntroError.other => "Unknown error"

/-- Models `IntrospectionResult` (`duration` omitted; wall-clock time spent
sleeping between attempts is returned separately by the loop model). -/
structure IntrospectionResult where
  success : Bool
  sdl : Option String
  error : Option String
deriving DecidableEq

/-- The retry loop of `introspect`, from attempt index `i` with `remaining`
further attempts allowed. Returns the result, the number of attempts made,
and the total delay slept between attempts. -/
def introspectAux (attempts : Nat → IntroAttempt) (retryDelayMs : Nat) (i : Nat) :
    Nat → IntrospectionResult × Nat × Nat
  | 0 =>
    match performIntrospection (attempts i) with
    | Except.ok sdl => ({ success := true, sdl := sdl, error := none }, 1, 0)
    | Except.error e =>
      ({ success := false, sdl := none, error := some (getErrorMessage e) }, 1, 0)
  | r + 1 =>
    match performIntrospection (attempts i) with
    | Except.ok sdl => ({ success := true, sdl := sdl, error := none }, 1, 0)
    | Except.error _ =>
      let rest := introspectAux attempts retryDelayMs (i + 1) r
      (rest.1, rest.2.1 + 1, rest.2.2 + retryDelayMs)

/-- Models `introspect`: run the loop for `maxRetries + 1` total attempts,
where `attempts n` is the outcome the n-th HTTP call would have. -/
def introspect (attempts : Nat → IntroAttempt) (rc : RetryConfig) :
    IntrospectionResult × Nat × Nat :=
  introspectAux attempts rc.retryDelayMs 0 rc.maxRetries

theorem introspectAux_spec (attempts : Nat → IntroAttempt) (d : Nat) :
    ∀ (rem i : Nat),
      1 ≤ (introspectAux attempts d i rem).2.1 ∧
      (introspectAux attempts d i rem).2.1 ≤ rem + 1 ∧
      (introspectAux attempts d i rem).2.2 =
        ((introspectAux attempts d i rem).2.1 - 1) * d ∧
      ((introspectAux attempts d i rem).1.success = true ↔
        ∃ k, k ≤ rem ∧ performOk (attempts (i + k)) = true ∧
          ∀ j, j < k → performOk (attempts (i + j)) = false) ∧
      ((introspectAux attempts d i rem).1.success = false →
        ∃ e, performIntrospection (attempts (i + rem)) = Except.error e ∧
          (introspectAux attempts d i rem).1.error = some (getErrorMessage e)) := by
  intro rem
  induction rem with
  | zero =>
    intro i
    cases hp : performIntrospection (attempts i) with
    | ok sdl =>
      have hval : introspectAux attempts d i 0 =
          ({ success := true, sdl := sdl, error := none }, 1, 0) := by
        simp [introspectAux, hp]
      rw [hval]
      refine ⟨Nat.le_refl 1, Nat.le_refl 1, (Nat.zero_mul d).symm, ?_, ?_⟩
      · constructor
        · intro _
          exact ⟨0, Nat.le_refl 0, by simp [performOk, hp],
            fun j hj => absurd hj (Nat.not_lt_zero j)⟩
        · intro _
          rfl
      · intro hfalse
        exact Bool.noConfusion hfalse
    | error e =>
      have hval : introspectAux attempts d i 0 =
          ({ success := false, sdl := none, error := some (getErrorMessage e) }, 1, 0) := by
        simp [introspectAux, hp]
      rw [hval]
      refine ⟨Nat.le_refl 1, Nat.le_refl 1, (Nat.zero_mul d).symm, ?_, ?_⟩
      · constructor
        · intro hs
          exact Bool.noConfusion hs
        · rintro ⟨k, hk, hok, -⟩
          have hk0 : k = 0 := Nat.le_zero.mp hk
          subst hk0
          rw [Nat.add_zero] at hok
          simp [performOk, hp] at hok
      · intro _
        refine ⟨e, ?_, rfl⟩
        rw [Nat.add_zero]
        exact hp
  | succ r ih =>
    intro i
    cases hp : performIntrospection (attempts i) with
    | ok sdl =>
      have hval : introspectAux attempts d i (r + 1) =
          ({ success := true, sdl := sdl, error := none }, 1, 0) := by
        simp [introspectAux, hp]
      rw [hval]
      refine ⟨Nat.le_refl 1, Nat.succ_le_succ (Nat.zero_le (r + 1)),
        (Nat.zero_mul d).symm, ?_, ?_⟩
      · constructor
        · intro _
          exact ⟨0, Nat.zero_le (r + 1), by simp [performOk, hp],
            fun j hj => absurd hj (Nat.not_lt_zero j)⟩
        · intro _
          rfl
      · intro hfalse
        exact Bool.noConfusion hfalse
    | error e =>
      have ihi := ih (i + 1)
      have hval : introspectAux attempts d i (r + 1) =
          ((introspectAux attempts d (i + 1) r).1,
            (introspectAux attempts d (i + 1) r).2.1 + 1,
            (introspectAux attempts d (i + 1) r).2.2 + d) := by
        simp [introspectAux, hp]
      rw [hval]
      refine ⟨?_, ?_, ?_, ?_, ?_⟩
      · exact Nat.le_add_left 1 _
      · exact Nat.succ_le_succ ihi.2.1
      · rw [Nat.add_sub_cancel]
        obtain ⟨m, hm⟩ : ∃ m, (introspectAux attempts d (i + 1) r).2.1 = m + 1 :=
          ⟨(introspectAux attempts d (i + 1) r).2.1 - 1, by
            have := ihi.1
            omega⟩
        have h3 := ihi.2.2.1
        rw [hm] at h3
        rw [Nat.add_sub_cancel] at h3
        rw [h3, hm, Nat.succ_mul]
      · constructor
        · intro hs
          obtain ⟨k, hk, hok, hfail⟩ := (ihi.2.2.2.1).mp hs
          refine ⟨k + 1, Nat.succ_le_succ hk, ?_, ?_⟩
          · have hidx : i + (k + 1) = i + 1 + k := by omega
            rw [hidx]
            exact hok
          · intro j hj
            cases j with
            | zero =>
              rw [Nat.add_zero]
              simp [performOk, hp]
            | succ j' =>
              have hidx : i + (j' + 1) = i + 1 + j' := by omega
              rw [hidx]
              exact hfail j' (by omega)
        · rintro ⟨k, hk, hok, hfail⟩
          cases k with
          | zero =>
            rw [Nat.add_zero] at hok
            simp [performOk, hp] at hok
          | succ k' =>
            apply (ihi.2.2.2.1).mpr
            refine ⟨k', by omega, ?_, ?_⟩
            · have hidx : i + 1 + k' = i + (k' + 1) := by omega
              rw [hidx]
              exact hok
            · intro j hj
              have hidx : i + 1 + j = i + (j + 1) := by omega
              rw [hidx]
              exact hfail (j + 1) (by omega)
      · intro hs
        obtain ⟨e2, he2, herr⟩ := ihi.2.2.2.2 hs
        refine ⟨e2, ?_, herr⟩
        have hidx : i + (r + 1) = i + 1 + r := by omega
        rw [hidx]
        exact he2

/-- Attempts whose response carries an empty-string SDL. -/
def emptySdlAttempts : Nat → IntroAttempt :=
  fun _ => IntroAttempt.resolved (IntroBody.withService (some ""))

/-- C6 counterexample: when the response contains `data._service.sdl = ""`,
`introspect` returns a success result carrying the empty SDL — success
does not require a non-empty string, refuting the claim (the non-empty
check is performed by its caller in `SchemaCache`). -/
theorem introspect_empty_sdl_counterexample :
    (introspect emptySdlAttempts { maxRetries := 0, retryDelayMs := 100 }).1.success = true ∧
    (introspect emptySdlAttempts { maxRetries := 0, retryDelayMs := 100 }).1.sdl = some "" := by
  exact ⟨rfl, rfl⟩

/-- C6 (amended): `introspect` makes between 1 and `maxRetries + 1` HTTP
attempts, sleeping `retryDelayMs` between consecutive attempts (total delay
`(attempts - 1) * retryDelayMs`), with a 10,000 ms per-attempt timeout; it
returns success iff some attempt within the window yields an HTTP response
whose body has a `data` object with a non-null `_service` (the `sdl` value
is returned as-is, possibly empty or undefined); otherwise it returns a
failure carrying `getErrorMessage` of the last attempt's error. -/
theorem introspect_retry_amended :
    (∀ (attempts : Nat → IntroAttempt) (rc : RetryConfig),
       1 ≤ (introspect attempts rc).2.1 ∧
       (introspect attempts rc).2.1 ≤ rc.maxRetries + 1) ∧
    (∀ (attempts : Nat → IntroAttempt) (rc : RetryConfig),
       (introspect attempts rc).2.2 =
         ((introspect attempts rc).2.1 - 1) * rc.retryDelayMs) ∧
    introspectionTimeoutMs = 10000 ∧
    (∀ (attempts : Nat → IntroAttempt) (rc : RetryConfig),
       ((introspect attempts rc).1.success = true ↔
         ∃ k, k ≤ rc.maxRetries ∧ performOk (attempts k) = true ∧
           ∀ j, j < k → performOk (attempts j) = false)) ∧
    (∀ (attempts : Nat → IntroAttempt) (rc : RetryConfig),
       (introspect attempts rc).1.success = false →
         ∃ e, performIntrospection (attempts rc.maxRetries) = Except.error e ∧
           (introspect attempts rc).1.error = some (getErrorMessage e)) := by
  refine ⟨?_, ?_, rfl, ?_, ?_⟩
  · intro attempts rc
    have h := introspectAux_spec attempts rc.retryDelayMs rc.maxRetries 0
    exact ⟨h.1, h.2.1⟩
  · intro attempts rc
    exact (introspectAux_spec attempts rc.retryDelayMs rc.maxRetries 0).2.2.1
  · intro attempts rc
    have h := (introspectAux_spec attempts rc.retryDelayMs rc.maxRetries 0).2.2.2.1
    simpa using h
  · intro attempts rc hfail
    have h := (introspectAux_spec attempts rc.retryDelayMs rc.maxRetries 0).2.2.2.2 hfail
    simpa using h

/-- Attempts that always fail with a connection refusal. -/
def failingAttempts : Nat → IntroAttempt :=
  fun _ => IntroAttempt.rejected
    (IntroError.axios (some "ECONNREFUSED") none "connect ECONNREFUSED")

/-- Witness for C6 (amended) at concrete attempt sequences. -/
theorem introspect_retry_amended_witness :
    (1 ≤ (introspect failingAttempts { maxRetries := 2, retryDelayMs := 10 }).2.1 ∧
      (introspect failingAttempts { maxRetries := 2, retryDelayMs := 10 }).2.1 ≤ 2 + 1) ∧
    (∃ e, performIntrospection (failingAttempts 2) = Except.error e ∧
      (introspect failingAttempts { maxRetries := 2, retryDelayMs := 10 }).1.error =
        some (getErrorMessage e)) := by
  have h := introspect_retry_amended
  exact ⟨h.1 failingAttempts { maxRetries := 2, retryDelayMs := 10 },
    h.2.2.2.2 failingAttempts { maxRetries := 2, retryDelayMs := 10 } rfl⟩

/-! ## Passthrough handler (`src/handlers/PassThroughHandler.ts`) -/

/-- A header value as seen on an Express request: a string or an array. -/
inductive HeaderValue
  | str (s : String)
  | arr (l : List String)
deriving DecidableEq

/-- Models the `hopByHopHeaders` set. -/
def hopByHopHeaders : List String :=
  ["connection", "keep-alive", "proxy-authenticate", "proxy-authorization",
    "te", "trailer", "transfer-encoding", "upgrade"]

/-- Models the `nonProxyableHeaders` set. -/
def nonProxyableHeaders : List String :=
  ["host", "content-length", "content-encoding"]

/-- Models `sanitizeHeaders`: skip undefined values, drop hop-by-hop and
non-proxyable names (lowercased match), keep everything else under the
original name. -/
def sanitizeHeaders (headers : List (String × Option HeaderValue)) :
    List (String × HeaderValue) :=
  headers.filterMap (fun p =>
    match p.2 with
    | none => none
    | some v =>
      if hopByHopHeaders.contains p.1.toLower then none
      else if nonProxyableHeaders.contains p.1.toLower then none
      else some (p.1, v))

/-- The eleven header names the claim says are dropped, in its order. -/
def claimedDroppedHeaders : List String :=
  ["connection", "keep-alive", "proxy-authenticate", "proxy-authorization",
    "te", "trailer", "transfer-encoding", "upgrade",
    "host", "content-length", "content-encoding"]

theorem filterMap_congr_local {α β : Type} (l : List α) (f g : α → Option β)
    (h : ∀ x ∈ l, f x = g x) : l.filterMap f = l.filterMap g := by
  induction l with
  | nil => rfl
  | cons a t ih =>
    rw [List.filterMap_cons, List.filterMap_cons, h a (List.mem_cons_self a t),
      ih (fun x hx => h x (List.mem_cons_of_mem a hx))]

theorem banned_headers_split (s : String) :
    (hopByHopHeaders.contains s || nonProxyableHeaders.contains s) =
      claimedDroppedHeaders.contains s := by
  simp [hopByHopHeaders, nonProxyableHeaders, claimedDroppedHeaders, Bool.or_assoc]

/-- C8: header sanitization removes exactly the entries whose lowercased
name is one of the eleven listed headers, skips undefined values, and keeps
every other entry unchanged under its original name (string- or
array-valued alike). -/
theorem sanitizeHeaders_spec (headers : List (String × Option HeaderValue)) :
    sanitizeHeaders headers = headers.filterMap (fun p =>
      match p.2 with
      | none => none
      | some v =>
        if claimedDroppedHeaders.contains p.1.toLower then none
        else some (p.1, v)) := by
  rw [sanitizeHeaders]
  apply filterMap_congr_local
  intro p _
  obtain ⟨k, v⟩ := p
  cases v with
  | none => rfl
  | some hv =>
    cases hh : hopByHopHeaders.contains k.toLower with
    | true =>
      have hc : claimedDroppedHeaders.contains k.toLower = true := by
        rw [← banned_headers_split, hh]
        simp
      have hm : k.toLower ∈ claimedDroppedHeaders := by simpa using hc
      simp [hh, hm]
    | false =>
      cases hn : nonProxyableHeaders.contains k.toLower with
      | true =>
        have hc : claimedDroppedHeaders.contains k.toLower = true := by
          rw [← banned_headers_split, hh, hn]
          simp
        have hm : k.toLower ∈ claimedDroppedHeaders := by simpa using hc
        simp [hh, hn, hm]
      | false =>
        have hc : claimedDroppedHeaders.contains k.toLower = false := by
          rw [← banned_headers_split, hh, hn]
          simp
        have hm : k.toLower ∉ claimedDroppedHeaders := by simpa using hc
        simp [hh, hn, hm]

/-- The shape of an axios error as inspected by `isConnectionError` and
`handleError`: the `isAxiosError` flag, the optional `code`, and whether a
`response` is attached. -/
structure AxiosErrorInfo where
  isAxios : Bool
  code : Option String
  hasResponse : Bool
deriving DecidableEq

/-- Models `isConnectionError`. -/
def isConnectionError (e : AxiosErrorInfo) : Bool :=
  e.isAxios && (e.code == some "ECONNREFUSED" || e.code == some "ENOTFOUND" ||
    e.code == some "ECONNABORTED" || !e.hasResponse)

/-- A response sent by the passthrough handler's error path: either the
cached-SDL introspection body or a GraphQL error envelope. -/
inductive ProxyRespBody
  | introspectionSdl (sdl : String)
  | gqlErrors (message : String) (code : String) (target : String)
deriving DecidableEq

/-- Status, headers and body of a handler response. -/
structure ProxyResponse where
  status : Nat
  headers : List (String × String)
  body : ProxyRespBody
deriving DecidableEq

/-- Models `sendErrorResponse`. -/
def sendErrorResponse (statusCode : Nat) (message code targetUrl : String) :
    ProxyResponse :=
  { status := statusCode
    headers := []
    body := ProxyRespBody.gqlErrors message code targetUrl }

/-- Models the successful `returnCachedSdl` response. -/
def returnCachedSdlResponse (targetUrl sdl : String) : ProxyResponse :=
  { status := 200
    headers := [("X-Proxy-Mode", "passthrough-introspection-cached"),
      ("X-Proxy-Target", targetUrl), ("X-Cache-Fallback", "true")]
    body := ProxyRespBody.introspectionSdl sdl }

/-- Models the error-classification tail of `handleError`. -/
def classifyForwardError (e : AxiosErrorInfo) (targetUrl : String) : ProxyResponse :=
  if e.isAxios then
    if e.code == some "ECONNABORTED" then
      sendErrorResponse 504 "Request timeout while forwarding to subgraph"
        "GATEWAY_TIMEOUT" targetUrl
    else if e.code == some "ECONNREFUSED" || e.code == some "ENOTFOUND" then
      sendErrorResponse 503 "Unable to connect to subgraph"
        "SERVICE_UNAVAILABLE" targetUrl
    else if !e.hasResponse then
      sendErrorResponse 502 "Network error while forwarding to subgraph"
        "BAD_GATEWAY" targetUrl
    else
      sendErrorResponse 500 "Unexpected error forwarding request"
        "INTERNAL_SERVER_ERROR" targetUrl
  else
    sendErrorResponse 500 "Internal error while forwarding request"
      "INTERNAL_SERVER_ERROR" targetUrl

/-- The introspection-fallback guard of `handleError`: the request, a
truthy subgraph name and the schema cache must be present, the body query
must be truthy and the federation introspection query, and the error must
be connection-class; then `returnCachedSdl` is attempted, whose
`getSchema` + `printSchema` outcome is the `cacheSdl` oracle (`Except.ok`
carries the printed cached SDL). Returns the SDL to serve, if any. -/
def introspectionFallbackSdl (e : AxiosErrorInfo) (reqQuery : Option (Option String))
    (subgraphName : Option String) (cacheSdl : Option (Except Unit String)) :
    Option String :=
  if reqQuery.isSome && strTruthy subgraphName && cacheSdl.isSome then
    match reqQuery.getD none with
    | some q =>
      if (q != "") && isIntrospectionQuery q then
        if isConnectionError e then
          match cacheSdl.getD (Except.error ()) with
          | Except.ok sdl => some sdl
          | Except.error _ => none
        else none
      else none
    | none => none
  else none

/-- Models `handleError`: serve the cached SDL when the fallback applies,
otherwise classify the forwarding error. -/
def handleError (e : AxiosErrorInfo) (targetUrl : String)
    (reqQuery : Option (Option String)) (subgraphName : Option String)
    (cacheSdl : Option (Except Unit String)) : ProxyResponse :=
  match introspectionFallbackSdl e reqQuery subgraphName cacheSdl with
  | some sdl => returnCachedSdlResponse targetUrl sdl
  | none => classifyForwardError e targetUrl

theorem fallback_none_of_cache_error (e : AxiosErrorInfo)
    (reqQuery : Option (Option String)) (subgraphName : Option String) :
    introspectionFallbackSdl e reqQuery subgraphName (some (Except.error ())) = none := by
  rw [introspectionFallbackSdl]
  split
  · split
    · split
      · split
        · rfl
        · rfl
      · rfl
    · rfl
  · rfl

/-- C7: when the passthrough body is the federation introspection query,
the error is connection-class, and the cached schema is retrievable, the
handler responds 200 with the cached SDL and the
`passthrough-introspection-cached` / `X-Cache-Fallback` headers; when the
cache retrieval fails it falls through to the normal error response. -/
theorem introspection_fallback :
    (∀ (e : AxiosErrorInfo) (targetUrl q subgraphName sdl : String),
       isIntrospectionQuery q = true → q ≠ "" → subgraphName ≠ "" →
       isConnectionError e = true →
       handleError e targetUrl (some (some q)) (some subgraphName)
           (some (Except.ok sdl)) =
         { status := 200
           headers := [("X-Proxy-Mode", "passthrough-introspection-cached"),
             ("X-Proxy-Target", targetUrl), ("X-Cache-Fallback", "true")]
           body := ProxyRespBody.introspectionSdl sdl }) ∧
    (∀ (e : AxiosErrorInfo) (targetUrl q : String) (subgraphName : Option String),
       handleError e targetUrl (some (some q)) subgraphName
           (some (Except.error ())) =
         classifyForwardError e targetUrl) := by
  constructor
  · intro e targetUrl q subgraphName sdl hq hqne hsne hconn
    have hq2 : (q != "") = true := by simpa using hqne
    have hs2 : strTruthy (some subgraphName) = true := by simpa [strTruthy] using hsne
    simp [handleError, introspectionFallbackSdl, hq2, hq, hconn, hs2,
      returnCachedSdlResponse]
  · intro e targetUrl q subgraphName
    rw [handleError, fallback_none_of_cache_error]

/-- Witness for C7 at the federation introspection query and a refused
connection. -/
theorem introspection_fallback_witness :
    handleError { isAxios := true, code := some "ECONNREFUSED", hasResponse := false }
        "http://products:4001" (some (some FEDERATION_INTROSPECTION_QUERY))
        (some "products") (some (Except.ok "type Query")) =
      { status := 200
        headers := [("X-Proxy-Mode", "passthrough-introspection-cached"),
          ("X-Proxy-Target", "http://products:4001"), ("X-Cache-Fallback", "true")]
        body := ProxyRespBody.introspectionSdl "type Query" } ∧
    handleError { isAxios := true, code := some "ECONNREFUSED", hasResponse := false }
        "http://products:4001" (some (some FEDERATION_INTROSPECTION_QUERY))
        (some "products") (some (Except.error ())) =
      classifyForwardError
        { isAxios := true, code := some "ECONNREFUSED", hasResponse := false }
        "http://products:4001" := by
  have h := introspection_fallback
  exact ⟨h.1 { isAxios := true, code := some "ECONNREFUSED", hasResponse := false }
      "http://products:4001" FEDERATION_INTROSPECTION_QUERY "products" "type Query"
      (by decide) (by decide) (by decide) (by decide),
    h.2 { isAxios := true, code := some "ECONNREFUSED", hasResponse := false }
      "http://products:4001" FEDERATION_INTROSPECTION_QUERY (some "products")⟩

/-! ## URL decoder middleware and proxy route (`urlDecoder.ts`, `server.ts`) -/

/-- Models `ProxyError` data as carried to the error handler. -/
structure ProxyErrorInfo where
  message : String
  code : String
  status : Nat
deriving DecidableEq

/-- The decoded fields the middleware attaches to the request. -/
structure DecodedRequest where
  targetUrl : String
  subgraphName : String
deriving DecidableEq

/-- Models `extractSubgraphName`: requires the `x-subgraph-name` header to
be a non-empty string value (array-valued or missing headers are
rejected). -/
def extractSubgraphName (header : Option HeaderValue) : Except ProxyErrorInfo String :=
  match header with
  | some (HeaderValue.str s) =>
    if s != "" then Except.ok s
    else
      Except.error
        { message := "x-subgraph-name header is required"
          code := "INVALID_GRAPHQL_REQUEST"
          status := 400 }
  | _ =>
    Except.error
      { message := "x-subgraph-name header is required"
        code := "INVALID_GRAPHQL_REQUEST"
        status := 400 }

/-- Models `urlDecoderMiddleware`. `decodeUriComponent` (which may throw on
malformed input) and URL validation are supplied as oracles. -/
def urlDecoderMiddleware (decodeUriComponent : String → Option String)
    (validateUrl : String → Bool) (encodedUrl : Option String)
    (subgraphHeader : Option HeaderValue) : Except ProxyErrorInfo DecodedRequest :=
  match encodedUrl with
  | none =>
    Except.error
      { message := "Target URL is required in path parameter"
        code := "INVALID_URL"
        status := 400 }
  | some enc =>
    if enc == "" then
      Except.error
        { message := "Target URL is required in path parameter"
          code := "INVALID_URL"
          status := 400 }
    else
      match decodeUriComponent enc with
      | none =>
        Except.error
          { message := "Invalid URL encoding in path parameter"
            code := "INVALID_URL"
            status := 400 }
      | some targetUrl =>
        if !validateUrl targetUrl then
          Except.error
            { message := "Invalid target URL format"
              code := "INVALID_URL"
              status := 400 }
        else
          match extractSubgraphName subgraphHeader with
          | Except.error err => Except.error err
          | Except.ok n => Except.ok { targetUrl := targetUrl, subgraphName := n }

/-- Where the proxy route body dispatches a decoded request. -/
inductive RouteDispatch
  | passthrough (targetUrl : String)
  | mock (subgraphName : String)
  | internalError
deriving DecidableEq

/-- Models the `POST /:encodedUrl` route body: passthrough when the routing
predicate said so, else mock when `subgraphName` is truthy, else the 500
`INTERNAL_SERVER_ERROR` branch. -/
def proxyRoute (shouldPassthrough : Bool) (d : DecodedRequest) : RouteDispatch :=
  if shouldPassthrough then RouteDispatch.passthrough d.targetUrl
  else if d.subgraphName != "" then RouteDispatch.mock d.subgraphName
  else RouteDispatch.internalError

/-- C10: every request that passes the URL-decoder middleware carries a
non-empty subgraph name, so the proxy route dispatches to the passthrough
or mock handler and its 500 `no handler available` branch is unreachable. -/
theorem proxy_route_no_internal_error
    (decode : String → Option String) (validate : String → Bool)
    (enc : Option String) (hdr : Option HeaderValue) (sp : Bool) (d : DecodedRequest)
    (hmw : urlDecoderMiddleware decode validate enc hdr = Except.ok d) :
    d.subgraphName ≠ "" ∧ proxyRoute sp d ≠ RouteDispatch.internalError ∧
      (proxyRoute sp d = RouteDispatch.passthrough d.targetUrl ∨
        proxyRoute sp d = RouteDispatch.mock d.subgraphName) := by
  have hname : d.subgraphName ≠ "" := by
    cases enc with
    | none => simp [urlDecoderMiddleware] at hmw
    | some enc' =>
      by_cases he : (enc' == "") = true
      · simp [urlDecoderMiddleware, he] at hmw
      · cases hdec : decode enc' with
        | none => simp [urlDecoderMiddleware, he, hdec] at hmw
        | some tu =>
          by_cases hv : validate tu = true
          · cases hex : extractSubgraphName hdr with
            | error err => simp [urlDecoderMiddleware, he, hdec, hv, hex] at hmw
            | ok n =>
              have hn : n ≠ "" := by
                cases hdr with
                | none => simp [extractSubgraphName] at hex
                | some hvv =>
                  cases hvv with
                  | str s =>
                    by_cases hs : (s != "") = true
                    · simp only [extractSubgraphName, hs, if_true,
                        Except.ok.injEq] at hex
                      rw [← hex]
                      simpa using hs
                    · simp [extractSubgraphName, hs] at hex
                  | arr l => simp [extractSubgraphName] at hex
              have hd : d = { targetUrl := tu, subgraphName := n } := by
                simp only [urlDecoderMiddleware, he, hdec, hv, hex, Bool.not_true,
                  Bool.false_eq_true, if_false, Except.ok.injEq] at hmw
                exact hmw.symm
              rw [hd]
              exact hn
          · simp [urlDecoderMiddleware, he, hdec, hv] at hmw
  refine ⟨hname, ?_, ?_⟩
  · rw [proxyRoute]
    by_cases hsp : sp = true
    · simp [hsp]
    · have hb : (d.subgraphName != "") = true := by simpa using hname
      simp [hsp, hb]
  · rw [proxyRoute]
    by_cases hsp : sp = true
    · simp [hsp]
    · have hb : (d.subgraphName != "") = true := by simpa using hname
      simp [hsp, hb]

/-- Witness for C10 at a concrete decoded request. -/
theorem proxy_route_no_internal_error_witness :
    ({ targetUrl := "http://products:4001", subgraphName := "products" } :
        DecodedRequest).subgraphName ≠ "" ∧
    proxyRoute false { targetUrl := "http://products:4001", subgraphName := "products" } ≠
      RouteDispatch.internalError ∧
    (proxyRoute false { targetUrl := "http://products:4001", subgraphName := "products" } =
        RouteDispatch.passthrough "http://products:4001" ∨
      proxyRoute false { targetUrl := "http://products:4001", subgraphName := "products" } =
        RouteDispatch.mock "products") :=
  proxy_route_no_internal_error (fun _ => some "http://products:4001") (fun _ => true)
    (some "http%3A%2F%2Fproducts%3A4001") (some (HeaderValue.str "products")) false
    { targetUrl := "http://products:4001", subgraphName := "products" } rfl

end MockingProxy
